import Mathlib

/-!
Shallow embedding of the referential-integrity and lifecycle engine of the
personal-blog backend (src/web_blog.py and src/daily_count.py), together with
theorems settling the frozen claims about it.

The entity store is modelled as lists of rows; each operation is translated
from the corresponding Flask route, with the commit behaviour of the
database session made explicit where a claim depends on it.
-/

namespace Blog

/-- Row of the `posts` table (class `Post`, src/web_blog.py). `date` and
`created_at` are abstracted to a natural-number day; `created_at` is not
read by any operation under study and is omitted. -/
structure Post where
  id : Nat
  title : String
  content : String
  date : Nat
  view_count : Nat
  deriving Repr, DecidableEq

/-- Row of the `comments` table (class `Comment`, src/web_blog.py). -/
structure Comment where
  id : Nat
  post_id : Nat
  title : String
  content : String
  deriving Repr, DecidableEq

/-- Row of the `tags` table (class `Tag`, src/web_blog.py). -/
structure Tag where
  id : Nat
  name : String
  view_count : Nat
  deriving Repr, DecidableEq

/-- Row of the `post_tags` association table (class `PostTags`,
src/web_blog.py); composite primary key (post_id, tag_id). -/
structure PostTags where
  post_id : Nat
  tag_id : Nat
  deriving Repr, DecidableEq

/-- Row of the `daily_stats` table (class `DailyStats`, src/web_blog.py).
The daily deltas are integers: the source computes them by subtraction of
Python ints, which can go negative when posts are deleted. -/
structure DailyStats where
  date : Nat
  cumulative_views : Nat
  cumulative_comments : Nat
  views : Int
  comments : Int
  deriving Repr, DecidableEq

/-- The entity store: the tables touched by the operations under study
(`roles` and `users` only feed authorization, which is outside the engine). -/
structure BlogState where
  posts : List Post
  comments : List Comment
  tags : List Tag
  links : List PostTags
  daily_stats : List DailyStats
  deriving Repr, DecidableEq

/-- Typed failure outcomes surfaced by the storage layer. `noResultFound` is
the exception raised by a `scalar_one()` lookup that does not match exactly
one row. -/
inductive BlogError where
  | notFound
  | integrityError
  | noResultFound
  deriving Repr, DecidableEq

/-- Fresh primary key for a new post row (autoincrement). -/
def nextPostId (s : BlogState) : Nat :=
  (s.posts.map Post.id).foldr max 0 + 1

/-- Fresh primary key for a new comment row (autoincrement). -/
def nextCommentId (s : BlogState) : Nat :=
  (s.comments.map Comment.id).foldr max 0 + 1

/-- Embedding of the newline normalization of `create_post`
(src/web_blog.py line 465): every newline character of the content is
replaced by the four-character line-break marker used by the source. -/
def normalizeContent (content : String) : String :=
  String.mk (content.toList.foldr
    (fun ch acc => if ch = '\n' then '<' :: 'b' :: 'r' :: '>' :: acc else ch :: acc) [])

/-- Embedding of `view_post` (src/web_blog.py lines 264-307), restricted to
its effect on the store. `notFound` is the `abort(404)` branch for a missing
post. Before the admin check and before any increment, the source fetches
the tag row of every link of the post with `scalar_one()` (lines 286-292),
which raises unless exactly one tag row matches the id; a link referencing a
missing tag therefore aborts the request with `noResultFound` and no counter
changes, for admins and non-admins alike. Otherwise, when the viewer is an
authenticated admin no counter changes; for anyone else the `view_count` of
the post and the `view_count` of every tag linked to the post are
incremented in one commit. -/
def view_post (s : BlogState) (post_id : Nat) (viewerIsAdmin : Bool) :
    Except BlogError BlogState :=
  match s.posts.find? (fun p => p.id = post_id) with
  | none => Except.error BlogError.notFound
  | some _ =>
    let tag_ids := (s.links.filter (fun l => l.post_id = post_id)).map PostTags.tag_id
    if tag_ids.all (fun tid => (s.tags.filter (fun t => t.id = tid)).length = 1) then
      if viewerIsAdmin then Except.ok s
      else
        Except.ok { s with
          posts := s.posts.map (fun p =>
            if p.id = post_id then { p with view_count := p.view_count + 1 } else p),
          tags := s.tags.map (fun t =>
            if tag_ids.contains t.id then { t with view_count := t.view_count + 1 } else t) }
    else Except.error BlogError.noResultFound

/-- Embedding of `add_comment` (src/web_blog.py lines 371-393). The route
validates only that title and content are nonempty; it never checks that a
post with `post_id` exists before inserting the row (SQLite does not enforce
the foreign key by default). -/
def add_comment (s : BlogState) (post_id : Nat) (title content : String) :
    BlogState :=
  if title = "" || content = "" then s
  else { s with comments := s.comments ++
    [{ id := nextCommentId s, post_id := post_id, title := title, content := content }] }

/-- The post row committed by `create_post` before any tag is linked. -/
def mkNewPost (s : BlogState) (title content : String) (date : Nat) : Post :=
  { id := nextPostId s, title := title, content := normalizeContent content,
    date := date, view_count := 0 }

/-- The per-tag loop of `create_post` (src/web_blog.py lines 476-479): each
`PostTags` row is added and committed individually, without checking that the
tag id references an existing tag. A commit that violates the composite
primary key fails with an integrity error and aborts the loop; the commits
already performed persist. -/
def insertLinks (pid : Nat) : List Nat → BlogState → Option BlogError × BlogState
  | [], s => (none, s)
  | t :: rest, s =>
    if s.links.contains { post_id := pid, tag_id := t } then
      (some BlogError.integrityError, s)
    else
      insertLinks pid rest { s with links := s.links ++ [{ post_id := pid, tag_id := t }] }

/-- Embedding of the POST branch of `create_post` (src/web_blog.py lines
452-483): the content is normalized, the post row is committed, then each
selected tag id is linked in its own commit via `insertLinks`. -/
def create_post (s : BlogState) (title content : String) (date : Nat)
    (selected_tags : List Nat) : Option BlogError × BlogState :=
  let s1 := { s with posts := s.posts ++ [mkNewPost s title content date] }
  insertLinks (nextPostId s) selected_tags s1

/-- The membership test `post_tag not in selected_tags` of `edit_post`
(src/web_blog.py line 526) compares a `PostTags` row object against a list of
integer tag ids. Python equality between a model instance and an int is
always false, so the test never finds the row in the list; consequently the
branch removing the row object from the integer list (line 530) is
unreachable and the loop deletes every current link row. -/
def pyRowMemIntList (_pt : PostTags) (_selected : List Nat) : Bool := false

/-- What one call to the tag-reconciliation part of `edit_post` did: the link
rows it deleted, the link rows it inserted, and the store after its single
commit. -/
structure EditResult where
  deleted : List PostTags
  inserted : List PostTags
  state : BlogState
  deriving Repr, DecidableEq

/-- The field update of `edit_post` (src/web_blog.py lines 507-509): title,
content and date of the matching post are overwritten; the content is stored
verbatim, with no newline normalization. -/
def editPostFields (post_id : Nat) (title content : String) (date : Nat)
    (p : Post) : Post :=
  if p.id = post_id then { p with title := title, content := content, date := date } else p

/-- Embedding of the POST branch of `edit_post` (src/web_blog.py lines
493-541). The fields of the post are overwritten via `editPostFields`, then the
link loop runs: rows failing the always-false membership test
`pyRowMemIntList` are deleted and every selected id is inserted, all flushed
in one commit. Within that flush a delete and an insert of the same
(post_id, tag_id) identity coalesce (SQLAlchemy row switch); an insert
colliding with a surviving row or with another insert violates the composite
primary key. -/
def edit_post (s : BlogState) (post_id : Nat) (title content : String)
    (date : Nat) (selected_tags : List Nat) : Except BlogError EditResult :=
  match s.posts.find? (fun p => p.id = post_id) with
  | none => Except.error BlogError.notFound
  | some _ =>
    let posts := s.posts.map (editPostFields post_id title content date)
    let post_tags := s.links.filter (fun l => l.post_id = post_id)
    let deleted := post_tags.filter (fun pt => !(pyRowMemIntList pt selected_tags))
    let inserted := selected_tags.map (fun t => ({ post_id := post_id, tag_id := t } : PostTags))
    let survivors := s.links.filter (fun l => !(deleted.contains l))
    if inserted.Nodup ∧ inserted.all (fun l => !(survivors.contains l)) then
      let state := { s with posts := posts, links := survivors ++ inserted }
      Except.ok { deleted := deleted, inserted := inserted, state := state }
    else
      Except.error BlogError.integrityError

/-- Embedding of `delete_post` (src/web_blog.py lines 573-604). First commit:
the post row is deleted, cascading its comments (relationship cascade) and
its association rows (secondary-table cascade). Second commit: the orphan
sweep removes every tag with no remaining link row. `none` is `abort(404)`. -/
def delete_post (s : BlogState) (post_id : Nat) : Option BlogState :=
  match s.posts.find? (fun p => p.id = post_id) with
  | none => none
  | some _ =>
    let s1 := { s with
      posts := s.posts.filter (fun p => p.id ≠ post_id),
      comments := s.comments.filter (fun c => c.post_id ≠ post_id),
      links := s.links.filter (fun l => l.post_id ≠ post_id) }
    some { s1 with tags := s1.tags.filter (fun t => s1.links.any (fun l => l.tag_id = t.id)) }

/-- Embedding of `delete_comment` (src/web_blog.py lines 551-571): removes
only the one comment row; `none` is `abort(404)`. -/
def delete_comment (s : BlogState) (comment_id : Nat) : Option BlogState :=
  match s.comments.find? (fun c => c.id = comment_id) with
  | none => none
  | some _ => some { s with comments := s.comments.filter (fun c => c.id ≠ comment_id) }

/-- The no-dangling-comment invariant: every comment references an existing
post. -/
def noDanglingComments (s : BlogState) : Prop :=
  ∀ c ∈ s.comments, ∃ p ∈ s.posts, p.id = c.post_id

/-- Descending insertion by date, embedding `order_by(Post.date.desc())`. -/
def insertByDateDesc (p : Post) : List Post → List Post
  | [] => [p]
  | q :: rest => if q.date ≤ p.date then p :: q :: rest else q :: insertByDateDesc p rest

/-- Sort a list of posts newest-first by date. -/
def sortByDateDesc (l : List Post) : List Post :=
  l.foldr insertByDateDesc []

/-- First-occurrence deduplication by post id, embedding the `unique_posts`
dictionary of `fetch_posts_by_tags` (src/web_blog.py lines 349-352). -/
def dedupById (seen : List Nat) : List Post → List Post
  | [] => []
  | p :: rest =>
    if seen.contains p.id then dedupById seen rest
    else p :: dedupById (p.id :: seen) rest

/-- Embedding of `fetch_all_posts` (src/web_blog.py lines 360-369): all
posts ordered by date, newest first. -/
def fetch_all_posts (s : BlogState) : List Post :=
  sortByDateDesc s.posts

/-- Embedding of `fetch_posts_by_tags` (src/web_blog.py lines 325-358). The
raw `ids` query-string parameter is the input: the empty string short-circuits
to the empty list; otherwise the comma-separated ids are parsed, posts are
joined against the link table, ordered newest first and deduplicated by id.
(The `int` conversion of the source raises on malformed digits; no claim exercises
that path, and the embedding defaults such fragments to 0.) -/
def fetch_posts_by_tags (s : BlogState) (idsParam : String) : List Post :=
  if idsParam = "" then []
  else
    let tag_ids := ((idsParam.splitOn ",").filter (fun t => t ≠ "")).map
      (fun t => (String.toNat? t).getD 0)
    let matching := s.posts.filter (fun p =>
      s.links.any (fun l => l.post_id = p.id && tag_ids.contains l.tag_id))
    dedupById [] (sortByDateDesc matching)

/-- Sum of `view_count` over all posts, embedding
`session.query(func.sum(Post.view_count)).scalar() or 0`
(src/daily_count.py line 24). -/
def totalViews (s : BlogState) : Nat :=
  (s.posts.map Post.view_count).sum

/-- Embedding of `track_daily_stats` (src/daily_count.py lines 15-57). The
lookup for the previous record matches exactly the date `today - 1`; when it
is absent the full cumulative totals are used, regardless of any older
records. The unique constraint on `date` rejects a second record for the
same day at commit. -/
def track_daily_stats (s : BlogState) (today : Nat) :
    Except BlogError (DailyStats × BlogState) :=
  let yesterday := today - 1
  let total_views := totalViews s
  let total_comments := s.comments.length
  let yesterday_stats := s.daily_stats.find? (fun d => d.date = yesterday)
  let deltas : Int × Int :=
    match yesterday_stats with
    | some prev =>
      ((total_views : Int) - (prev.cumulative_views : Int),
       (total_comments : Int) - (prev.cumulative_comments : Int))
    | none => ((total_views : Int), (total_comments : Int))
  let new_stats : DailyStats :=
    { date := today, cumulative_views := total_views,
      cumulative_comments := total_comments,
      views := deltas.1, comments := deltas.2 }
  if s.daily_stats.any (fun d => d.date = today) then
    Except.error BlogError.integrityError
  else
    Except.ok (new_stats, { s with daily_stats := s.daily_stats ++ [new_stats] })

deriving instance DecidableEq for Except

/-! ### Concrete stores used by counterexamples and witnesses -/

/-- The empty store. -/
def emptyState : BlogState :=
  { posts := [], comments := [], tags := [], links := [], daily_stats := [] }

/-- A store holding one post (id 1) and one tag (id 9) that has no link row
at all. Such a store is reachable: `create_tag` inserts a tag with zero
links, and `edit_post` can remove the last link of a tag without sweeping. -/
def c1state : BlogState :=
  { posts := [{ id := 1, title := "p1", content := "c", date := 10, view_count := 0 }],
    comments := [], tags := [{ id := 9, name := "orphan", view_count := 0 }],
    links := [], daily_stats := [] }

/-- A store with two posts, a tag linked to both, a tag linked only to post
1, and one comment on each post. -/
def w1state : BlogState :=
  { posts := [{ id := 1, title := "p1", content := "c", date := 10, view_count := 0 },
              { id := 2, title := "p2", content := "c", date := 11, view_count := 0 }],
    comments := [{ id := 5, post_id := 1, title := "hi", content := "x" },
                 { id := 6, post_id := 2, title := "yo", content := "y" }],
    tags := [{ id := 1, name := "shared", view_count := 0 },
             { id := 2, name := "solo", view_count := 0 }],
    links := [{ post_id := 1, tag_id := 1 }, { post_id := 2, tag_id := 1 },
              { post_id := 1, tag_id := 2 }],
    daily_stats := [] }

/-- The store `w1state` after deleting post 1: the comment on post 1 and the
tag linked only to post 1 are gone; the shared tag survives. -/
def w1after : BlogState :=
  { posts := [{ id := 2, title := "p2", content := "c", date := 11, view_count := 0 }],
    comments := [{ id := 6, post_id := 2, title := "yo", content := "y" }],
    tags := [{ id := 1, name := "shared", view_count := 0 }],
    links := [{ post_id := 2, tag_id := 1 }],
    daily_stats := [] }

/-- The store `w1state` after a non-admin view of post 1. -/
def w3after : BlogState :=
  { w1state with
    posts := [{ id := 1, title := "p1", content := "c", date := 10, view_count := 1 },
              { id := 2, title := "p2", content := "c", date := 11, view_count := 0 }],
    tags := [{ id := 1, name := "shared", view_count := 1 },
             { id := 2, name := "solo", view_count := 1 }] }

/-- A store whose only daily-stat record is three days old: the job run for
day 5 finds no record for day 4 and falls back to full cumulative totals. -/
def w4state : BlogState :=
  { w1state with
    posts := [{ id := 1, title := "p1", content := "c", date := 10, view_count := 4 }],
    daily_stats := [{ date := 2, cumulative_views := 1, cumulative_comments := 1,
                      views := 1, comments := 1 }] }

/-- The daily-stat record produced by running the job on `w4state` for day
5. -/
def w4rec : DailyStats :=
  { date := 5, cumulative_views := 4, cumulative_comments := 2, views := 4, comments := 2 }

/-- The store after the first tag-reconciling edit of post 1 in `w1state`
with desired set {1, 2}: the same link rows, with the rows of post 1
re-inserted behind the surviving row of post 2. -/
def w5mid : BlogState :=
  { w1state with
    links := [{ post_id := 2, tag_id := 1 }, { post_id := 1, tag_id := 1 },
              { post_id := 1, tag_id := 2 }] }

/-- The result of the first tag-reconciling edit of post 1 in `w1state`
with desired set {1, 2}: both current rows deleted, both desired rows
inserted, final store `w5mid`. -/
def c5r1 : EditResult :=
  { deleted := [{ post_id := 1, tag_id := 1 }, { post_id := 1, tag_id := 2 }],
    inserted := [{ post_id := 1, tag_id := 1 }, { post_id := 1, tag_id := 2 }],
    state := w5mid }

/-- The partially-committed store left behind when `create_post` on the
empty store fails while linking the duplicated tag id 1: the post row and
the first link row persist. -/
def c6after : BlogState :=
  { posts := [{ id := 1, title := "a", content := "b", date := 0, view_count := 0 }],
    comments := [], tags := [],
    links := [{ post_id := 1, tag_id := 1 }], daily_stats := [] }

/-- The store `c1state` after editing post 1 with submitted content
containing a raw newline: the content is stored verbatim. -/
def c9after : BlogState :=
  { c1state with
    posts := [{ id := 1, title := "t", content := "a\nb", date := 0, view_count := 0 }] }

/-- The no-dangling-comment invariant is decidable, so witnesses can check
it on concrete stores. -/
instance (s : BlogState) : Decidable (noDanglingComments s) :=
  inferInstanceAs (Decidable (∀ c ∈ s.comments, ∃ p ∈ s.posts, p.id = c.post_id))

/-- The store produced by running the daily-stats job on `w4state` for day
5. -/
def w4after : BlogState :=
  { w4state with daily_stats := w4state.daily_stats ++ [w4rec] }

/-! ### Helper lemmas -/

/-- The per-link loop of `create_post` never touches the other tables, and
whatever its outcome, the links of the final store are the initial links
followed by the rows for some prefix of the requested tag ids: the commits
performed before a failure persist. -/
theorem insertLinks_partial (pid : Nat) (ts : List Nat) (s0 : BlogState) :
    ((insertLinks pid ts s0).2.posts = s0.posts ∧
     (insertLinks pid ts s0).2.comments = s0.comments ∧
     (insertLinks pid ts s0).2.tags = s0.tags ∧
     (insertLinks pid ts s0).2.daily_stats = s0.daily_stats) ∧
    ∃ pre suf, ts = pre ++ suf ∧
      (insertLinks pid ts s0).2.links =
        s0.links ++ pre.map (fun t => { post_id := pid, tag_id := t }) := by
  induction ts generalizing s0 with
  | nil => exact ⟨⟨rfl, rfl, rfl, rfl⟩, [], [], rfl, by simp [insertLinks]⟩
  | cons t rest ih =>
    by_cases hcl : ({ post_id := pid, tag_id := t } : PostTags) ∈ s0.links
    · refine ⟨?_, [], t :: rest, rfl, ?_⟩ <;> simp [insertLinks, hcl]
    · obtain ⟨hfields, pre, suf, hts, hlinks⟩ :=
        ih { s0 with links := s0.links ++ [{ post_id := pid, tag_id := t }] }
      refine ⟨?_, t :: pre, suf, by simp [hts], ?_⟩
      · simpa [insertLinks, hcl] using hfields
      · rw [show insertLinks pid (t :: rest) s0 = insertLinks pid rest
            { s0 with links := s0.links ++ [{ post_id := pid, tag_id := t }] } from by
          simp [insertLinks, hcl]]
        simpa [List.append_assoc] using hlinks

/-- Length is preserved by the descending insertion. -/
theorem insertByDateDesc_length (p : Post) (l : List Post) :
    (insertByDateDesc p l).length = l.length + 1 := by
  induction l with
  | nil => rfl
  | cons q rest ih =>
    by_cases hq : q.date ≤ p.date
    · simp [insertByDateDesc, hq]
    · simp [insertByDateDesc, hq, ih]

/-- Sorting by date preserves the number of posts. -/
theorem sortByDateDesc_length (l : List Post) :
    (sortByDateDesc l).length = l.length := by
  induction l with
  | nil => rfl
  | cons p rest ih =>
    simp [sortByDateDesc, List.foldr_cons, insertByDateDesc_length] at *
    omega


/-- Filtering a list by the complement of a previous filter over the same
list keeps exactly the elements failing the predicate: this identifies the
surviving link rows of `edit_post` with the rows of other posts. -/
theorem filter_not_contains_filter (links : List PostTags) (p : PostTags → Bool) :
    links.filter (fun l => !((links.filter p).contains l)) =
      links.filter (fun l => !(p l)) := by
  apply List.filter_congr
  intro l hl
  simp [List.mem_filter, hl]

/-- The rows inserted by `edit_post` are pairwise distinct whenever the
desired tag ids are. -/
theorem inserted_nodup (pid : Nat) (sel : List Nat) (hsel : sel.Nodup) :
    (sel.map (fun t => ({ post_id := pid, tag_id := t } : PostTags))).Nodup := by
  refine List.Nodup.map ?_ hsel
  intro a b hab
  simpa using hab

/-- Normal form of a successful `edit_post`: when the post exists and the
desired tag ids are duplicate-free, the call succeeds, deletes every current
link row of the post, inserts one row per desired id, and the resulting
links are the rows of the other posts followed by the inserted rows. -/
theorem edit_post_normal (s : BlogState) (pid : Nat) (title content : String)
    (date : Nat) (sel : List Nat) (p0 : Post)
    (hfind : s.posts.find? (fun p => p.id = pid) = some p0)
    (hsel : sel.Nodup) :
    edit_post s pid title content date sel =
      Except.ok { deleted := s.links.filter (fun l => l.post_id = pid),
                  inserted := sel.map (fun t => { post_id := pid, tag_id := t }),
                  state := { s with
                    posts := s.posts.map (editPostFields pid title content date),
                    links := s.links.filter (fun l => !(decide (l.post_id = pid))) ++
                      sel.map (fun t => { post_id := pid, tag_id := t }) } } := by
  unfold edit_post
  rw [hfind]
  simp only [pyRowMemIntList, Bool.not_false, List.filter_true]
  rw [filter_not_contains_filter]
  rw [if_pos]
  constructor
  · exact inserted_nodup pid sel hsel
  · rw [List.all_eq_true]
    intro l hlmem
    rw [List.mem_map] at hlmem
    obtain ⟨t, _, rfl⟩ := hlmem
    simp [List.mem_filter]

/-- The field update of `edit_post` never changes the id of a post. -/
theorem editPostFields_id (pid : Nat) (title content : String) (date : Nat) (p : Post) :
    (editPostFields pid title content date p).id = p.id := by
  by_cases hp : p.id = pid <;> simp [editPostFields, hp]

/-- Applying the same field update twice equals applying it once. -/
theorem editPostFields_idem (pid : Nat) (title content : String) (date : Nat) (p : Post) :
    editPostFields pid title content date (editPostFields pid title content date p) =
      editPostFields pid title content date p := by
  by_cases hp : p.id = pid <;> simp [editPostFields, hp]

/-- Mapping the same field update twice over the post table equals mapping
it once. -/
theorem map_editPostFields_idem (pid : Nat) (title content : String) (date : Nat)
    (l : List Post) :
    (l.map (editPostFields pid title content date)).map
        (editPostFields pid title content date) =
      l.map (editPostFields pid title content date) := by
  induction l with
  | nil => rfl
  | cons q rest ih => simp [editPostFields_idem, ih]

/-- The lookup by id still succeeds after the field update, returning the
updated row. -/
theorem find?_map_editPostFields (posts : List Post) (pid : Nat)
    (title content : String) (date : Nat) (p0 : Post)
    (h : posts.find? (fun p => p.id = pid) = some p0) :
    (posts.map (editPostFields pid title content date)).find? (fun p => p.id = pid) =
      some (editPostFields pid title content date p0) := by
  induction posts with
  | nil => simp at h
  | cons q rest ih =>
    by_cases hq : q.id = pid
    · rw [List.find?_cons_of_pos _ (by simp [hq])] at h
      rw [Option.some.injEq] at h
      subst h
      rw [List.map_cons, List.find?_cons_of_pos _ (by simp [editPostFields_id, hq])]
    · rw [List.find?_cons_of_neg _ (by simp [hq])] at h
      rw [List.map_cons, List.find?_cons_of_neg _ (by simp [editPostFields_id, hq])]
      exact ih h

/-- Re-filtering by a predicate after keeping only its complement yields
nothing. -/
theorem filter_neg_filter_pos (l : List PostTags) (p : PostTags → Bool) :
    (l.filter (fun a => !(p a))).filter p = [] := by
  rw [List.filter_filter]
  simp

/-- Filtering by the complement of a predicate is idempotent. -/
theorem filter_pos_idem (l : List PostTags) (p : PostTags → Bool) :
    (l.filter (fun a => !(p a))).filter (fun a => !(p a)) =
      l.filter (fun a => !(p a)) := by
  rw [List.filter_filter]
  simp

/-- Every inserted row carries the edited post id, so filtering the inserted
rows by that id keeps all of them. -/
theorem filter_inserted_pos (pid : Nat) (sel : List Nat) :
    (sel.map (fun t => ({ post_id := pid, tag_id := t } : PostTags))).filter
        (fun l => decide (l.post_id = pid)) =
      sel.map (fun t => { post_id := pid, tag_id := t }) := by
  rw [List.filter_eq_self]
  intro a ha
  rw [List.mem_map] at ha
  obtain ⟨t, _, rfl⟩ := ha
  simp

/-- Filtering the inserted rows by the other-post predicate drops all of
them. -/
theorem filter_inserted_neg (pid : Nat) (sel : List Nat) :
    (sel.map (fun t => ({ post_id := pid, tag_id := t } : PostTags))).filter
        (fun l => !(decide (l.post_id = pid))) = [] := by
  rw [List.filter_eq_nil_iff]
  intro a ha
  rw [List.mem_map] at ha
  obtain ⟨t, _, rfl⟩ := ha
  simp

/-! ### Claim C1 -/

/-- Claim C1, counterexample: in the store `c1state` the tag with id 9 has
zero link rows, yet deleting post 1 deletes it — refuting, at this input,
that a tag is deleted only if it had exactly one link and that link
referenced the deleted post. -/
theorem c1_counterexample :
    delete_post c1state 1 = some emptyState ∧
    ¬ (∀ t ∈ c1state.tags, t ∉ emptyState.tags →
        c1state.links.filter (fun l => l.tag_id = t.id) =
          [{ post_id := 1, tag_id := t.id }]) := by decide

/-- Claim C1 as amended: deleting post `pid` removes exactly the comments
whose `post_id` is `pid` and exactly the posts with id `pid`, and a tag
survives if and only if it still has a link to some other post — so a tag is
deleted if and only if every one of its links (possibly none) referenced the
deleted post, and a tag linked to another post always survives. -/
theorem c1_delete_post_amended (s : BlogState) (pid : Nat) (s' : BlogState)
    (h : delete_post s pid = some s') :
    (∀ c : Comment, c ∈ s'.comments ↔ c ∈ s.comments ∧ c.post_id ≠ pid) ∧
    (∀ p : Post, p ∈ s'.posts ↔ p ∈ s.posts ∧ p.id ≠ pid) ∧
    (∀ t : Tag, t ∈ s'.tags ↔
      t ∈ s.tags ∧ ∃ l ∈ s.links, l.tag_id = t.id ∧ l.post_id ≠ pid) := by
  unfold delete_post at h
  split at h
  · exact absurd h (by simp)
  · rw [Option.some.injEq] at h
    subst h
    refine ⟨?_, ?_, ?_⟩ <;> intro x <;>
      (simp [List.mem_filter, List.any_eq_true, and_assoc]; try tauto)

/-- Witness for `c1_delete_post_amended` on the store `w1state`: deleting
post 1 removes its comment and the tag linked only to it, while the tag
shared with post 2 survives. -/
theorem c1_witness :
    (∀ c : Comment, c ∈ w1after.comments ↔ c ∈ w1state.comments ∧ c.post_id ≠ 1) ∧
    (∀ p : Post, p ∈ w1after.posts ↔ p ∈ w1state.posts ∧ p.id ≠ 1) ∧
    (∀ t : Tag, t ∈ w1after.tags ↔
      t ∈ w1state.tags ∧ ∃ l ∈ w1state.links, l.tag_id = t.id ∧ l.post_id ≠ 1) :=
  c1_delete_post_amended w1state 1 w1after (by decide)

/-! ### Claim C2 -/

/-- Claim C2, evaluation at the failing input: post 1 of `w1state` is linked
to tags 1 and 2 and the desired set is exactly {1, 2}; the claim requires
the ids present in both sets to be left untouched (nothing deleted, nothing
re-inserted), but the code deletes both current link rows and re-inserts
both. -/
theorem c2_code_eval :
    edit_post w1state 1 "p1" "c" 10 [1, 2] =
      Except.ok { deleted := [{ post_id := 1, tag_id := 1 }, { post_id := 1, tag_id := 2 }],
                  inserted := [{ post_id := 1, tag_id := 1 }, { post_id := 1, tag_id := 2 }],
                  state := w5mid } := by decide

/-! ### Claim C3 -/

/-- Claim C3: a view by an authenticated admin changes nothing; a view by
anyone else, whenever it completes (the `scalar_one()` tag fetch aborts the
request before any increment if a link of the post references a missing
tag), increments the `view_count` of the viewed post by exactly 1,
increments the `view_count` of every tag linked to that post by exactly 1,
and changes nothing else: other posts and unlinked tags are carried over
unchanged, comments, links and daily stats are untouched, and no row is
added or removed. Moreover, on a store satisfying the link-integrity
invariant of the data model (every link references exactly one tag row), a
non-admin view of an existing post always completes, so the increments are
actually performed there. -/
theorem c3_view_post (sA sB sC : BlogState) (pidA pidB pidC : Nat)
    (sA' sB' : BlogState) (pC : Post)
    (hA : view_post sA pidA true = Except.ok sA')
    (hB : view_post sB pidB false = Except.ok sB')
    (hCpost : sC.posts.find? (fun p => p.id = pidC) = some pC)
    (hCint : ∀ l ∈ sC.links, (sC.tags.filter (fun t => t.id = l.tag_id)).length = 1) :
    sA' = sA ∧
    (∃ sC', view_post sC pidC false = Except.ok sC') ∧
    sB'.comments = sB.comments ∧ sB'.links = sB.links ∧
    sB'.daily_stats = sB.daily_stats ∧
    sB'.posts.length = sB.posts.length ∧ sB'.tags.length = sB.tags.length ∧
    (∀ p ∈ sB.posts,
      (p.id = pidB → { p with view_count := p.view_count + 1 } ∈ sB'.posts) ∧
      (p.id ≠ pidB → p ∈ sB'.posts)) ∧
    (∀ t ∈ sB.tags,
      ((∃ l ∈ sB.links, l.post_id = pidB ∧ l.tag_id = t.id) →
        { t with view_count := t.view_count + 1 } ∈ sB'.tags) ∧
      ((¬ ∃ l ∈ sB.links, l.post_id = pidB ∧ l.tag_id = t.id) → t ∈ sB'.tags)) := by
  have hguard : (((sC.links.filter (fun l => l.post_id = pidC)).map PostTags.tag_id).all
      (fun tid => (sC.tags.filter (fun t => t.id = tid)).length = 1)) = true := by
    rw [List.all_eq_true]
    intro tid htid
    rw [List.mem_map] at htid
    obtain ⟨l, hlf, rfl⟩ := htid
    rw [List.mem_filter] at hlf
    simpa using hCint l hlf.1
  have hC : ∃ sC', view_post sC pidC false = Except.ok sC' := by
    unfold view_post
    rw [hCpost]
    simp only []
    rw [if_pos hguard, if_neg (by simp)]
    exact ⟨_, rfl⟩
  unfold view_post at hA hB
  split at hA
  · exact absurd hA (by simp)
  · simp only [] at hA
    split at hA
    · rw [if_pos trivial, Except.ok.injEq] at hA
      subst hA
      split at hB
      · exact absurd hB (by simp)
      · simp only [] at hB
        split at hB
        · rw [if_neg (by simp), Except.ok.injEq] at hB
          subst hB
          refine ⟨rfl, hC, rfl, rfl, rfl, by simp, by simp, ?_, ?_⟩
          · intro p hp
            constructor
            · intro hpid
              exact List.mem_map.mpr ⟨p, hp, by simp [hpid]⟩
            · intro hpid
              exact List.mem_map.mpr ⟨p, hp, by simp [hpid]⟩
          · intro t ht
            constructor
            · intro hex
              refine List.mem_map.mpr ⟨t, ht, ?_⟩
              obtain ⟨l, hl, hlp, hlt⟩ := hex
              have hcont : t.id ∈ (List.map PostTags.tag_id
                  (List.filter (fun l => decide (l.post_id = pidB)) sB.links)) := by
                refine List.mem_map.mpr ⟨l, ?_, hlt⟩
                simp [List.mem_filter, hl, hlp]
              simp [hcont]
            · intro hnex
              refine List.mem_map.mpr ⟨t, ht, ?_⟩
              have hcont : t.id ∉ (List.map PostTags.tag_id
                  (List.filter (fun l => decide (l.post_id = pidB)) sB.links)) := by
                intro hmem
                obtain ⟨l, hlf, hlt⟩ := List.mem_map.mp hmem
                rw [List.mem_filter] at hlf
                exact hnex ⟨l, hlf.1, by simpa using hlf.2, hlt⟩
              simp [hcont]
        · exact absurd hB (by simp)
    · exact absurd hA (by simp)

/-- Witness for `c3_view_post`: an admin view of post 2 of `w1state` leaves
the store unchanged; `w1state` satisfies link integrity, so a non-admin view
of post 1 completes, incrementing its counter and the counters of both
linked tags, yielding `w3after`. -/
theorem c3_witness :
    w1state = w1state ∧
    (∃ sC', view_post w1state 1 false = Except.ok sC') ∧
    w3after.comments = w1state.comments ∧ w3after.links = w1state.links ∧
    w3after.daily_stats = w1state.daily_stats ∧
    w3after.posts.length = w1state.posts.length ∧
    w3after.tags.length = w1state.tags.length ∧
    (∀ p ∈ w1state.posts,
      (p.id = 1 → { p with view_count := p.view_count + 1 } ∈ w3after.posts) ∧
      (p.id ≠ 1 → p ∈ w3after.posts)) ∧
    (∀ t ∈ w1state.tags,
      ((∃ l ∈ w1state.links, l.post_id = 1 ∧ l.tag_id = t.id) →
        { t with view_count := t.view_count + 1 } ∈ w3after.tags) ∧
      ((¬ ∃ l ∈ w1state.links, l.post_id = 1 ∧ l.tag_id = t.id) → t ∈ w3after.tags)) :=
  c3_view_post w1state w1state w1state 2 1 1 w1state w3after
    { id := 1, title := "p1", content := "c", date := 10, view_count := 0 }
    (by decide) (by decide) (by decide) (by decide)

/-! ### Claim C4 -/

/-- Claim C4: the record inserted by the daily-stats job for `today` stores
the current totals as its cumulative columns, and its delta columns are the
totals minus the cumulative columns of the record for `today - 1` when such
a record exists, and the full totals otherwise — even when records for
older days exist. -/
theorem c4_track_daily_stats (s : BlogState) (today : Nat) (r : DailyStats)
    (s' : BlogState) (h : track_daily_stats s today = Except.ok (r, s')) :
    r.date = today ∧
    r.cumulative_views = totalViews s ∧
    r.cumulative_comments = s.comments.length ∧
    s'.daily_stats = s.daily_stats ++ [r] ∧
    (∀ prev, s.daily_stats.find? (fun d => d.date = today - 1) = some prev →
      r.views = (totalViews s : Int) - (prev.cumulative_views : Int) ∧
      r.comments = (s.comments.length : Int) - (prev.cumulative_comments : Int)) ∧
    (s.daily_stats.find? (fun d => d.date = today - 1) = none →
      r.views = (totalViews s : Int) ∧ r.comments = (s.comments.length : Int)) := by
  unfold track_daily_stats at h
  simp only [] at h
  split at h
  · exact absurd h (by simp)
  · rw [Except.ok.injEq, Prod.mk.injEq] at h
    obtain ⟨hr, hs⟩ := h
    subst hr hs
    refine ⟨rfl, rfl, rfl, rfl, ?_, ?_⟩
    · intro prev hprev
      simp [hprev]
    · intro hnone
      simp [hnone]

/-- Witness for `c4_track_daily_stats` on `w4state`, whose only record is
three days old: the job run for day 5 finds no record for day 4, so the
deltas are the full cumulative totals although an older record exists. -/
theorem c4_witness :
    w4rec.date = 5 ∧
    w4rec.cumulative_views = totalViews w4state ∧
    w4rec.cumulative_comments = w4state.comments.length ∧
    w4after.daily_stats = w4state.daily_stats ++ [w4rec] ∧
    (∀ prev, w4state.daily_stats.find? (fun d => d.date = 5 - 1) = some prev →
      w4rec.views = (totalViews w4state : Int) - (prev.cumulative_views : Int) ∧
      w4rec.comments = (w4state.comments.length : Int) - (prev.cumulative_comments : Int)) ∧
    (w4state.daily_stats.find? (fun d => d.date = 5 - 1) = none →
      w4rec.views = (totalViews w4state : Int) ∧
      w4rec.comments = (w4state.comments.length : Int)) :=
  c4_track_daily_stats w4state 5 w4rec w4after (by decide)

/-! ### Claim C5 -/

/-- Claim C5: the tag update of `edit_post` is idempotent. If a first call
with a duplicate-free desired tag set succeeds with result `r1` on a store
whose link rows are pairwise distinct, then a second call with the same
desired set also succeeds, leaves the store exactly as after the first call
(in particular the same link set), and the link table holds no duplicate
(post_id, tag_id) row. -/
theorem c5_edit_post_idempotent (s : BlogState) (pid : Nat) (title content : String)
    (date : Nat) (sel : List Nat) (r1 : EditResult)
    (hsel : sel.Nodup) (hlinks : s.links.Nodup)
    (h1 : edit_post s pid title content date sel = Except.ok r1) :
    edit_post r1.state pid title content date sel =
      Except.ok { deleted := r1.inserted, inserted := r1.inserted, state := r1.state } ∧
    r1.state.links.Nodup := by
  cases hfind : s.posts.find? (fun p => p.id = pid) with
  | none =>
    rw [edit_post, hfind] at h1
    exact absurd h1 (by simp)
  | some p0 =>
    rw [edit_post_normal s pid title content date sel p0 hfind hsel,
      Except.ok.injEq] at h1
    subst h1
    have hfind2 := find?_map_editPostFields s.posts pid title content date p0 hfind
    constructor
    · rw [edit_post_normal _ pid title content date sel _ hfind2 hsel]
      simp only [Except.ok.injEq, EditResult.mk.injEq]
      refine ⟨?_, trivial, ?_⟩
      · rw [List.filter_append, filter_neg_filter_pos, filter_inserted_pos,
          List.nil_append]
      · rw [BlogState.mk.injEq]
        refine ⟨map_editPostFields_idem pid title content date s.posts, rfl, rfl, ?_, rfl⟩
        rw [List.filter_append, filter_pos_idem, filter_inserted_neg, List.append_nil]
    · refine List.Nodup.append (List.Nodup.filter _ hlinks)
        (inserted_nodup pid sel hsel) ?_
      intro a ha hb
      rw [List.mem_filter] at ha
      rw [List.mem_map] at hb
      obtain ⟨t, _, hrt⟩ := hb
      rw [← hrt] at ha
      simp at ha

/-- Witness for `c5_edit_post_idempotent`: repeating on `w5mid` the edit of
post 1 of `w1state` with desired set {1, 2} succeeds, re-deletes and
re-inserts the same two rows, and leaves the store `w5mid` unchanged and
duplicate-free. -/
theorem c5_witness :
    edit_post c5r1.state 1 "p1" "c" 10 [1, 2] =
      Except.ok { deleted := c5r1.inserted, inserted := c5r1.inserted,
                  state := c5r1.state } ∧
    c5r1.state.links.Nodup :=
  c5_edit_post_idempotent w1state 1 "p1" "c" 10 [1, 2] c5r1
    (by decide) (by decide) (by decide)

/-! ### Claim C6 -/

/-- Claim C6, counterexample: creating a post on the empty store with the
duplicated tag-id list [1, 1] fails at the second link commit, yet the store
is not restored — the post row and the first link row persist. -/
theorem c6_counterexample :
    create_post emptyState "a" "b" 0 [1, 1] = (some BlogError.integrityError, c6after) ∧
    c6after ≠ emptyState := by decide

/-- Claim C6 as amended: `create_post` is not all-or-nothing. When it fails
while linking tags, the committed post row and the link rows of the already
processed prefix of the requested tag ids persist; only each individual
commit is atomic. The other tables are never touched. -/
theorem c6_create_post_partial (s : BlogState) (title content : String)
    (date : Nat) (sel : List Nat) (e : BlogError) (s' : BlogState)
    (h : create_post s title content date sel = (some e, s')) :
    s'.posts = s.posts ++ [mkNewPost s title content date] ∧
    s'.comments = s.comments ∧ s'.tags = s.tags ∧ s'.daily_stats = s.daily_stats ∧
    ∃ pre suf, sel = pre ++ suf ∧
      s'.links = s.links ++ pre.map (fun t => { post_id := nextPostId s, tag_id := t }) := by
  simp only [create_post] at h
  obtain ⟨⟨hp, hcm, htg, hds⟩, pre, suf, hts, hlinks⟩ :=
    insertLinks_partial (nextPostId s) sel
      { s with posts := s.posts ++ [mkNewPost s title content date] }
  rw [h] at hp hcm htg hds hlinks
  exact ⟨hp, hcm, htg, hds, pre, suf, hts, hlinks⟩

/-- Witness for `c6_create_post_partial` at the failing creation on the
empty store. -/
theorem c6_witness :
    c6after.posts = emptyState.posts ++ [mkNewPost emptyState "a" "b" 0] ∧
    c6after.comments = emptyState.comments ∧ c6after.tags = emptyState.tags ∧
    c6after.daily_stats = emptyState.daily_stats ∧
    ∃ pre suf, ([1, 1] : List Nat) = pre ++ suf ∧
      c6after.links = emptyState.links ++
        pre.map (fun t => { post_id := nextPostId emptyState, tag_id := t }) :=
  c6_create_post_partial emptyState "a" "b" 0 [1, 1] BlogError.integrityError c6after
    (by decide)

/-! ### Claim C7 -/

/-- Claim C7, evaluation at the failing input: neither `create_post` nor
`edit_post` validates tag ids. Creating a post with the unknown tag id 99 on
the empty store succeeds and leaves a dangling link row, and editing post 1
of `c1state` with desired set {99} likewise succeeds and inserts a dangling
link row, although no tag 99 exists in either store. -/
theorem c7_code_eval :
    ((create_post emptyState "a" "b" 0 [99]).1 = none ∧
      ({ post_id := 1, tag_id := 99 } : PostTags) ∈
        (create_post emptyState "a" "b" 0 [99]).2.links ∧
      (create_post emptyState "a" "b" 0 [99]).2.tags.all (fun t => t.id ≠ 99)) ∧
    (edit_post c1state 1 "p1" "c" 10 [99] =
      Except.ok { deleted := [], inserted := [{ post_id := 1, tag_id := 99 }],
                  state := { c1state with links := [{ post_id := 1, tag_id := 99 }] } } ∧
      c1state.tags.all (fun t => t.id ≠ 99)) := by decide

/-! ### Claim C8 -/

/-- Claim C8, counterexample: on the empty store, which has no post at all,
`add_comment` with post id 999 still creates the comment — refuting that a
comment is only created when its post exists. -/
theorem c8_counterexample :
    emptyState.posts = [] ∧
    (add_comment emptyState 999 "t" "c").comments =
      [{ id := 1, post_id := 999, title := "t", content := "c" }] := by decide

/-- Claim C8 as amended: `add_comment` with nonempty title and content
appends the comment with the given post id whether or not such a post
exists, so the no-dangling-comment invariant is not enforced at creation;
`delete_post` preserves the invariant, since it removes every comment of the
deleted post along with the post row. -/
theorem c8_add_comment_amended (s s2 : BlogState) (pid pid2 : Nat)
    (title content : String) (s2' : BlogState)
    (ht : ¬ title = "") (hc : ¬ content = "")
    (hd : delete_post s2 pid2 = some s2')
    (hinv : noDanglingComments s2) :
    (add_comment s pid title content).comments =
      s.comments ++
        [{ id := nextCommentId s, post_id := pid, title := title, content := content }] ∧
    noDanglingComments s2' := by
  constructor
  · simp [add_comment, ht, hc]
  · unfold delete_post at hd
    split at hd
    · exact absurd hd (by simp)
    · rw [Option.some.injEq] at hd
      subst hd
      intro c hcmem
      simp only [List.mem_filter, decide_eq_true_eq] at hcmem
      obtain ⟨hcs, hcpid⟩ := hcmem
      obtain ⟨p, hps, hpid⟩ := hinv c hcs
      refine ⟨p, ?_, hpid⟩
      simp only [List.mem_filter, decide_eq_true_eq]
      exact ⟨hps, by rw [hpid]; exact hcpid⟩

/-- Witness for `c8_add_comment_amended`: a comment with post id 999 is
created on the empty store, and deleting post 1 of `w1state` (which
satisfies the invariant) preserves the invariant. -/
theorem c8_witness :
    (add_comment emptyState 999 "t" "c").comments =
      emptyState.comments ++
        [{ id := nextCommentId emptyState, post_id := 999, title := "t", content := "c" }] ∧
    noDanglingComments w1after :=
  c8_add_comment_amended emptyState w1state 999 1 "t" "c" w1after
    (by decide) (by decide) (by decide) (by decide)

/-! ### Claim C9 -/

/-- Claim C9, counterexample: editing post 1 of `c1state` with submitted
content containing a raw newline stores the content verbatim, not the
normalized form produced on creation. -/
theorem c9_counterexample :
    edit_post c1state 1 "t" "a\nb" 0 [] =
      Except.ok { deleted := [], inserted := [], state := c9after } ∧
    normalizeContent "a\nb" = "a<br>b" ∧ "a\nb" ≠ "a<br>b" := by decide

/-- Claim C9 as amended: after `create_post` the persisted content of the
new post is the submitted content with every newline replaced by the
line-break marker, whatever the outcome of the tag linking; after
`edit_post` the persisted content of the edited post is the submitted
content verbatim, with no normalization. -/
theorem c9_content_amended (s s2 : BlogState) (title content t2 c2 : String)
    (date d2 : Nat) (sel sel2 : List Nat) (pid : Nat)
    (res : Option BlogError) (s1 : BlogState) (r : EditResult)
    (h1 : create_post s title content date sel = (res, s1))
    (h2 : edit_post s2 pid t2 c2 d2 sel2 = Except.ok r) :
    (mkNewPost s title content date ∈ s1.posts ∧
      (mkNewPost s title content date).content = normalizeContent content) ∧
    (∀ p ∈ r.state.posts, p.id = pid → p.content = c2) := by
  constructor
  · constructor
    · simp only [create_post] at h1
      obtain ⟨⟨hp, _, _, _⟩, _⟩ :=
        insertLinks_partial (nextPostId s) sel
          { s with posts := s.posts ++ [mkNewPost s title content date] }
      rw [h1] at hp
      rw [hp]
      simp
    · rfl
  · unfold edit_post at h2
    split at h2
    · exact absurd h2 (by simp)
    · simp only [] at h2
      split at h2
      · rw [Except.ok.injEq] at h2
        subst h2
        intro p hp hpid
        simp only [List.mem_map] at hp
        obtain ⟨q, hq, rfl⟩ := hp
        by_cases hqid : q.id = pid
        · simp [editPostFields, hqid]
        · simp [editPostFields, hqid] at hpid
      · exact absurd h2 (by simp)

/-- Witness for `c9_content_amended`: creating a post with a newline in the
content stores the normalized form, while the edit of `c9_counterexample`
stores its submitted content verbatim. -/
theorem c9_witness :
    (mkNewPost emptyState "a" "x\ny" 0 ∈ (create_post emptyState "a" "x\ny" 0 []).2.posts ∧
      (mkNewPost emptyState "a" "x\ny" 0).content = normalizeContent "x\ny") ∧
    (∀ p ∈ c9after.posts, p.id = 1 → p.content = "a\nb") :=
  c9_content_amended emptyState c1state "a" "x\ny" "t" "a\nb" 0 0 [] [] 1
    none (create_post emptyState "a" "x\ny" 0 []).2
    { deleted := [], inserted := [], state := c9after } (by decide) (by decide)

/-! ### Claim C10 -/

/-- Claim C10: fetching posts by tags with an empty filter returns the empty
sequence, which — whenever any post exists — differs from the sequence of
all posts. -/
theorem c10_empty_filter (s : BlogState) (h : s.posts ≠ []) :
    fetch_posts_by_tags s "" = [] ∧ fetch_posts_by_tags s "" ≠ fetch_all_posts s := by
  have h1 : fetch_posts_by_tags s "" = [] := by simp [fetch_posts_by_tags]
  refine ⟨h1, ?_⟩
  rw [h1]
  intro hcontra
  have hlen := sortByDateDesc_length s.posts
  rw [fetch_all_posts] at hcontra
  rw [← hcontra] at hlen
  simp at hlen
  exact h (List.length_eq_zero.mp hlen.symm)

/-- Witness for `c10_empty_filter` on `c1state`, which holds one post. -/
theorem c10_witness :
    fetch_posts_by_tags c1state "" = [] ∧
    fetch_posts_by_tags c1state "" ≠ fetch_all_posts c1state :=
  c10_empty_filter c1state (by decide)

end Blog

